import Mathlib

/-!
Shallow embedding of the `bevy_sim_world` crate's core: the change ledger
(`src/change_detection.rs`, `src/lib.rs`), the command history engine
(`src/command.rs`), the serialization registry (`src/saving/mod.rs`) and the
state request engine (`src/requests/all_state.rs`, `src/requests/state_dif.rs`).

Conventions of the embedding:
* Bevy `Entity`, `usize` player ids and the `u16` ids `SimComponentId` /
  `SimResourceId` are modelled as `Nat` (no arithmetic is ever performed on
  them, so overflow is irrelevant).
* `HashMap<K, V>` is modelled as an association list with unique keys;
  `insert` replaces the value of an existing key, exactly like
  `HashMap::insert`.
* `Vec<T>` used as a stack is a `List` whose *last* element is the top:
  `push` appends at the end, `pop` takes `getLast?` / `dropLast`.
* A Rust function mutating `&mut World` and returning `Result<(), String>`
  becomes `σ → σ × Option String`: the world it left behind plus `some err`
  on `Err` (the world may have been mutated before the failure) and `none`
  on `Ok`.
* A Rust `panic!` becomes an `Except.error` carrying the state at the point
  of the panic.
* `info!` logging is modelled by threading an explicit list of reported
  messages where a claim refers to the report.
-/

namespace SimWorldModel

/-- Association-list map with `HashMap::insert` replace semantics. -/
def mapGet {V : Type} (m : List (Nat × V)) (k : Nat) : Option V :=
  match m with
  | [] => none
  | (k', v) :: rest => if k' = k then some v else mapGet rest k

/-- `HashMap::contains_key`. -/
def mapContains {V : Type} (m : List (Nat × V)) (k : Nat) : Bool :=
  (mapGet m k).isSome

/-- `HashMap::insert`: replaces the value stored under an existing key,
otherwise adds a new entry. -/
def mapInsert {V : Type} (m : List (Nat × V)) (k : Nat) (v : V) :
    List (Nat × V) :=
  match m with
  | [] => [(k, v)]
  | (k', v') :: rest =>
    if k' = k then (k, v) :: rest else (k', v') :: mapInsert rest k v

/-- `HashMap::remove` (by key). -/
def mapRemove {V : Type} (m : List (Nat × V)) (k : Nat) : List (Nat × V) :=
  m.filter (fun e => !(e.1 == k))

/-- `Vec::pop`: the last element together with the remaining vector. -/
def vecPop {α : Type} (xs : List α) : Option α × List α :=
  (xs.getLast?, xs.dropLast)

/-- `struct Player` from `src/player.rs`. -/
structure Player where
  id : Nat
  needs_state : Bool
deriving DecidableEq, Repr

/-- `struct SimChanged` from `src/change_detection.rs`: the set of player ids
that have already received the current dirty version. -/
structure SimChanged where
  players_seen : List Nat
deriving DecidableEq, Repr

namespace SimChanged

/-- `SimChanged::all_seen`: true iff every player flagged `needs_state` is a
member of `players_seen`. Translated from the source loop. -/
def all_seen (s : SimChanged) (players : List Player) : Bool :=
  match players with
  | [] => true
  | p :: rest =>
    if p.needs_state && !(s.players_seen.contains p.id) then false
    else all_seen s rest

/-- `SimChanged::check_and_register_seen`: if `id` is already a member,
return `true` leaving the record unchanged; otherwise push `id` and return
`false`. The Rust method mutates `&mut self`; here the updated record is
returned alongside the boolean. -/
def check_and_register_seen (s : SimChanged) (id : Nat) : Bool × SimChanged :=
  if s.players_seen.contains id then (true, s)
  else (false, ⟨s.players_seen ++ [id]⟩)

end SimChanged

/-! ## Command history engine (`src/command.rs`) -/

/-- `trait GameCommand`, over an abstract world type `σ`. Both methods take
`&mut World` and return `Result<(), String>`. -/
structure GameCommand (σ : Type) where
  execute : σ → σ × Option String
  rollback : σ → σ × Option String

/-- `struct GameCommandMeta`: a command plus its creation timestamp. -/
structure GameCommandMeta (σ : Type) where
  command : GameCommand σ
  command_time : Nat

/-- `struct GameCommandsHistory`. `history` is the undo stack,
`rolledback_history` the redo stack; `rollbacks` / `rollforwards` are the
pending request counters (`u32`, only ever decremented while nonzero in the
flush loops). -/
structure GameCommandsHistory (σ : Type) where
  history : List (GameCommandMeta σ)
  rolledback_history : List (GameCommandMeta σ)
  rollbacks : Nat
  rollforwards : Nat

/-- `struct GameCommandQueue`: FIFO of pending commands. -/
structure GameCommandQueue (σ : Type) where
  queue : List (GameCommandMeta σ)

/-- `struct GameCommands`. -/
structure GameCommands (σ : Type) where
  queue : GameCommandQueue σ
  history : GameCommandsHistory σ

/-- Loop body of `GameCommands::execute_buffer`: the queue is drained in FIFO
order; a succeeding command is pushed onto `history`; a failing command is
dropped and its error reported; in the source `clear_rollback_history()` sits
after the `match`, inside the loop, so `rolledback_history` is cleared on
every iteration, success or failure. -/
def execute_buffer_go {σ : Type} :
    List (GameCommandMeta σ) → GameCommandsHistory σ → σ → List String →
    GameCommandsHistory σ × σ × List String
  | [], hist, w, log => (hist, w, log)
  | c :: rest, hist, w, log =>
    match c.command.execute w with
    | (w', none) =>
      execute_buffer_go rest
        { hist with history := hist.history ++ [c], rolledback_history := [] }
        w' log
    | (w', some e) =>
      execute_buffer_go rest { hist with rolledback_history := [] } w'
        (log ++ [e])

/-- `GameCommands::execute_buffer`. Returns the updated resource, the world,
and the list of reported execution failures. -/
def execute_buffer {σ : Type} (gc : GameCommands σ) (w : σ) :
    GameCommands σ × σ × List String :=
  let (hist, w', log) := execute_buffer_go gc.queue.queue gc.history w []
  ({ queue := ⟨[]⟩, history := hist }, w', log)

/-- `execute_game_rollbacks_buffer`: while the rollback counter is nonzero,
pop the undo stack; a popped command's failing `rollback` panics
(`.expect("Rollback failed")`), modelled as `Except.error` carrying the panic
message and the state at the point of the panic (command already popped, not
pushed to the redo stack, counter not yet decremented); on success the
command is pushed onto the redo stack; the counter is decremented whether or
not the stack yielded a command. -/
def execute_game_rollbacks_buffer {σ : Type}
    (h : GameCommandsHistory σ) (w : σ) :
    Except (String × GameCommandsHistory σ × σ) (GameCommandsHistory σ × σ) :=
  if hz : h.rollbacks = 0 then .ok (h, w)
  else
    match h.history.getLast? with
    | some cmd =>
      match cmd.command.rollback w with
      | (w', some _) =>
        .error ("Rollback failed", { h with history := h.history.dropLast }, w')
      | (w', none) =>
        execute_game_rollbacks_buffer
          { h with
            history := h.history.dropLast,
            rolledback_history := h.rolledback_history ++ [cmd],
            rollbacks := h.rollbacks - 1 } w'
    | none =>
      execute_game_rollbacks_buffer { h with rollbacks := h.rollbacks - 1 } w
termination_by h.rollbacks
decreasing_by
  all_goals omega

/-- `execute_game_rollforward_buffer`: while the rollforward counter is
nonzero, pop the redo stack; a popped command is re-executed — on success it
is pushed back onto the undo stack, on failure only `"Rolledforward failed"`
is reported and the command is dropped; the counter is decremented whether or
not the stack yielded a command. -/
def execute_game_rollforward_buffer {σ : Type}
    (h : GameCommandsHistory σ) (w : σ) (log : List String) :
    GameCommandsHistory σ × σ × List String :=
  if hz : h.rollforwards = 0 then (h, w, log)
  else
    match h.rolledback_history.getLast? with
    | some cmd =>
      match cmd.command.execute w with
      | (w', none) =>
        execute_game_rollforward_buffer
          { h with
            rolledback_history := h.rolledback_history.dropLast,
            history := h.history ++ [cmd],
            rollforwards := h.rollforwards - 1 } w' log
      | (w', some _) =>
        execute_game_rollforward_buffer
          { h with
            rolledback_history := h.rolledback_history.dropLast,
            rollforwards := h.rollforwards - 1 } w'
          (log ++ ["Rolledforward failed"])
    | none =>
      execute_game_rollforward_buffer
        { h with rollforwards := h.rollforwards - 1 } w log
termination_by h.rollforwards
decreasing_by
  all_goals omega

/-! ## Serialization registry (`src/saving/mod.rs`) -/

/-- `struct ResourceState` from `src/requests/mod.rs`: a `u16` id plus the
serialized bytes. -/
structure ResourceState where
  resource_id : Nat
  resource : List Nat
deriving DecidableEq, Repr

/-- `struct GameSerDeRegistry`, parametric in the three kinds of stored
functions (`ComponentDeserializeFn`, `ResourceDeserializeFn`,
`ResourceSerializeFn`); the claims only inspect lookups and insertions, so
the value types stay abstract except where a serialize function is applied. -/
structure GameSerDeRegistry (CDe RDe RSe : Type) where
  component_de_map : List (Nat × CDe)
  resource_de_map : List (Nat × RDe)
  resource_se_map : List (Nat × RSe)

/-- `GameSerDeRegistry::register_component`: panics (modelled as `some` panic
message, with the registry as it stood — the panic fires before any insert)
when the id is already a key of `component_de_map`; otherwise inserts the
deserialize function. -/
def register_component {CDe RDe RSe : Type}
    (r : GameSerDeRegistry CDe RDe RSe) (id : Nat) (fde : CDe) :
    GameSerDeRegistry CDe RDe RSe × Option String :=
  if mapContains r.component_de_map id then
    (r, some ("SavingMap component_de_map already contains key " ++ toString id))
  else
    ({ r with component_de_map := mapInsert r.component_de_map id fde }, none)

/-- `GameSerDeRegistry::register_resource`: panics when the id is already a
key of `resource_de_map` (the duplicate check of the source inspects only the
deserialize map); otherwise inserts into both the deserialize and the
serialize maps. -/
def register_resource {CDe RDe RSe : Type}
    (r : GameSerDeRegistry CDe RDe RSe) (id : Nat) (fde : RDe) (fse : RSe) :
    GameSerDeRegistry CDe RDe RSe × Option String :=
  if mapContains r.resource_de_map id then
    (r, some ("SavingMap component_de_map already contains key " ++ toString id))
  else
    ({ r with
        resource_de_map := mapInsert r.resource_de_map id fde,
        resource_se_map := mapInsert r.resource_se_map id fse }, none)

/-- `GameSerDeRegistry::serialize_resource`: look up the serialize function
for the id and apply it to the world; `None` when the id has no registered
serialize function. -/
def serialize_resource {CDe RDe σ : Type}
    (r : GameSerDeRegistry CDe RDe (σ → Option ResourceState)) (rid : Nat)
    (w : σ) : Option ResourceState :=
  match mapGet r.resource_se_map rid with
  | some f => f w
  | none => none

/-! ## State request engine (`src/requests/all_state.rs`,
`src/requests/state_dif.rs`) — the resource phases, which are what claims C1
and C10 are about. `ResourceChangeTracking.resources` is the
`SimResourceId → SimChanged` ledger. -/

/-- Resource phase of `AllState::request`: iterate the entries of the
`ResourceChangeTracking` ledger (only them — entries absent from the ledger
are never visited) and push every successfully serialized resource. -/
def allStateResources {CDe RDe σ : Type}
    (reg : GameSerDeRegistry CDe RDe (σ → Option ResourceState))
    (resources : List (Nat × SimChanged)) (w : σ) : List ResourceState :=
  match resources with
  | [] => []
  | (id, _) :: rest =>
    match serialize_resource reg id w with
    | some rs => rs :: allStateResources reg rest w
    | none => allStateResources reg rest w

/-- Resource phase of `StateDif::request` for player `p`: iterate the
`ResourceChangeTracking` ledger with `iter_mut`; for each entry first call
`check_and_register_seen(p)` (mutating the record), and only when it returns
`false` look up and run the serialize function, pushing a produced state.
Returns the updated ledger and the pushed resource states, in iteration
order. -/
def stateDifResources {CDe RDe σ : Type} (p : Nat)
    (reg : GameSerDeRegistry CDe RDe (σ → Option ResourceState))
    (resources : List (Nat × SimChanged)) (w : σ) :
    List (Nat × SimChanged) × List ResourceState :=
  match resources with
  | [] => ([], [])
  | (id, changed) :: rest =>
    let (already, changed') := changed.check_and_register_seen p
    let out : Option ResourceState :=
      if already then none else serialize_resource reg id w
    let (rest', outs) := stateDifResources p reg rest w
    ((id, changed') :: rest',
      match out with
      | some rs => rs :: outs
      | none => outs)

/-! ## Change tracking systems (`src/change_detection.rs`) -/

/-- `track_component_changes::<C>`: for every entity whose `C` changed insert
`SimChanged::default()` (overwriting any existing `SimChanged`), and likewise
for every entity from `RemovedComponents<C>` that still exists. The world
slice is the `Entity → SimChanged` map of live entities carrying the
component, together with the changed-set, removed-set and live-set the Bevy
queries provide. -/
def track_component_changes (simChanged : List (Nat × SimChanged))
    (changed removed live : List Nat) : List (Nat × SimChanged) :=
  let m1 := changed.foldl (fun m e => mapInsert m e ⟨[]⟩) simChanged
  removed.foldl (fun m e => if live.contains e then mapInsert m e ⟨[]⟩ else m) m1

/-- `track_resource_changes::<R>`: if the resource is absent do nothing;
otherwise, if its change bit is set, insert a fresh `SimChanged::default()`
under its save id (overwriting any existing record). -/
def track_resource_changes (resources : List (Nat × SimChanged)) (rid : Nat)
    (present changed : Bool) : List (Nat × SimChanged) :=
  if !present then resources
  else if changed then mapInsert resources rid ⟨[]⟩
  else resources

/-! ## `SimWorld::clear_changed` (`src/lib.rs`) -/

/-- The three ledgers `clear_changed` walks: `SimChanged` components on live
entities, `TrackedDespawns.despawned_objects` and
`ResourceChangeTracking.resources`. -/
structure ChangeLedgers where
  simChanged : List (Nat × SimChanged)
  despawned_objects : List (Nat × SimChanged)
  resources : List (Nat × SimChanged)

/-- Collect the keys whose record satisfies `all_seen`, then remove each of
them — the collect-then-remove shape of the despawn and resource passes of
`clear_changed`; the entity pass (a query walk issuing one deferred
`remove::<SimChanged>()` per satisfying entity) has the same effect. -/
def removeAllSeen (players : List Player) (m : List (Nat × SimChanged)) :
    List (Nat × SimChanged) :=
  let toRemove := ((m.filter (fun e => e.2.all_seen players)).map (·.1))
  toRemove.foldl (fun acc k => mapRemove acc k) m

/-- `SimWorld::clear_changed`: drop every ledger entry whose record is
`all_seen` for the given player list, in all three ledgers. -/
def clear_changed (l : ChangeLedgers) (players : List Player) : ChangeLedgers :=
  { simChanged := removeAllSeen players l.simChanged,
    despawned_objects := removeAllSeen players l.despawned_objects,
    resources := removeAllSeen players l.resources }

/-! ## Concrete instances used to exercise the model -/

/-- A command over `σ := Nat` whose `execute` increments the world and whose
`rollback` decrements it, both succeeding. -/
def okCmd : GameCommandMeta Nat := ⟨⟨fun w => (w + 1, none), fun w => (w - 1, none)⟩, 0⟩

/-- A command whose `execute` always fails with `"boom"` (leaving the world
as it was) and whose `rollback` succeeds. -/
def failingCmd : GameCommandMeta Nat :=
  ⟨⟨fun w => (w, some "boom"), fun w => (w, none)⟩, 0⟩

/-- A command whose `execute` succeeds and whose `rollback` always fails with
`"bad"`. -/
def badRollbackCmd : GameCommandMeta Nat :=
  ⟨⟨fun w => (w + 1, none), fun w => (w, some "bad")⟩, 0⟩

/-- A registry whose only registration is a serialize function for resource
id `7`; applied to any world it reports the resource as present with bytes
`[1, 2, 3]` — id `7` thus has a registered codec and the resource is present
in the store. -/
def sampleRegistry : GameSerDeRegistry Nat Nat (Nat → Option ResourceState) :=
  ⟨[], [], [(7, fun _ => some ⟨7, [1, 2, 3]⟩)]⟩

/-- A registry with no resource serialize registrations at all. -/
def emptyRegistry : GameSerDeRegistry Nat Nat (Nat → Option ResourceState) :=
  ⟨[], [], []⟩

/-! ## Theorems -/

/-- C6: `check_and_register_seen` returns `true` and leaves the record
unchanged when the id is already a member of the seen-set, otherwise appends
the id and returns `false`; consequently a duplicate-free seen-set stays
duplicate-free. -/
theorem c6_check_and_register_seen_idempotent (s : SimChanged) (id : Nat) :
    (id ∈ s.players_seen → s.check_and_register_seen id = (true, s)) ∧
    (id ∉ s.players_seen →
      s.check_and_register_seen id = (false, ⟨s.players_seen ++ [id]⟩)) ∧
    (s.players_seen.Nodup →
      ((s.check_and_register_seen id).2).players_seen.Nodup) := by
  refine ⟨fun hmem => ?_, fun hmem => ?_, fun hnd => ?_⟩
  · simp [SimChanged.check_and_register_seen, hmem]
  · simp [SimChanged.check_and_register_seen, hmem]
  · by_cases hmem : id ∈ s.players_seen
    · simpa [SimChanged.check_and_register_seen, hmem] using hnd
    · simp [SimChanged.check_and_register_seen, hmem, List.nodup_append, hnd]

/-- Witness for C6 at concrete records. -/
theorem c6_witness :
    SimChanged.check_and_register_seen ⟨[3]⟩ 3 = (true, ⟨[3]⟩) ∧
    SimChanged.check_and_register_seen ⟨[3]⟩ 4 = (false, ⟨[3, 4]⟩) ∧
    ((SimChanged.check_and_register_seen ⟨[3]⟩ 4).2).players_seen.Nodup :=
  ⟨(c6_check_and_register_seen_idempotent ⟨[3]⟩ 3).1 (by decide),
   (c6_check_and_register_seen_idempotent ⟨[3]⟩ 4).2.1 (by decide),
   (c6_check_and_register_seen_idempotent ⟨[3]⟩ 4).2.2 (by decide)⟩

/-- C9: registering a component codec or a resource codec under an id already
present in the same namespace reports the fatal duplicate-key panic with the
registry left exactly as it was, so the original registration is still found
by a subsequent lookup. -/
theorem c9_duplicate_registration_panics :
    (∀ (CDe RDe RSe : Type) (r : GameSerDeRegistry CDe RDe RSe) (id : Nat)
        (f g : CDe), mapGet r.component_de_map id = some f →
      (register_component r id g).1 = r ∧
      ((register_component r id g).2).isSome = true ∧
      mapGet ((register_component r id g).1).component_de_map id = some f) ∧
    (∀ (CDe RDe RSe : Type) (r : GameSerDeRegistry CDe RDe RSe) (id : Nat)
        (f gde : RDe) (gse : RSe), mapGet r.resource_de_map id = some f →
      (register_resource r id gde gse).1 = r ∧
      ((register_resource r id gde gse).2).isSome = true ∧
      mapGet ((register_resource r id gde gse).1).resource_de_map id = some f) := by
  constructor
  · intro CDe RDe RSe r id f g hf
    simp [register_component, mapContains, hf]
  · intro CDe RDe RSe r id f gde gse hf
    simp [register_resource, mapContains, hf]

/-- Witness for C9: a registry already holding component codec `10` under id
`1` and resource codec `20` under id `2` rejects re-registration of those ids
and keeps the original entries. -/
theorem c9_witness :
    (register_component (⟨[(1, 10)], [(2, 20)], [(2, 30)]⟩ :
        GameSerDeRegistry Nat Nat Nat) 1 11).1 = ⟨[(1, 10)], [(2, 20)], [(2, 30)]⟩ ∧
    ((register_component (⟨[(1, 10)], [(2, 20)], [(2, 30)]⟩ :
        GameSerDeRegistry Nat Nat Nat) 1 11).2).isSome = true ∧
    mapGet ((register_component (⟨[(1, 10)], [(2, 20)], [(2, 30)]⟩ :
        GameSerDeRegistry Nat Nat Nat) 1 11).1).component_de_map 1 = some 10 ∧
    (register_resource (⟨[(1, 10)], [(2, 20)], [(2, 30)]⟩ :
        GameSerDeRegistry Nat Nat Nat) 2 21 31).1 = ⟨[(1, 10)], [(2, 20)], [(2, 30)]⟩ ∧
    mapGet ((register_resource (⟨[(1, 10)], [(2, 20)], [(2, 30)]⟩ :
        GameSerDeRegistry Nat Nat Nat) 2 21 31).1).resource_de_map 2 = some 20 := by
  have hc := c9_duplicate_registration_panics.1 Nat Nat Nat
    ⟨[(1, 10)], [(2, 20)], [(2, 30)]⟩ 1 10 11 (by decide)
  have hr := c9_duplicate_registration_panics.2 Nat Nat Nat
    ⟨[(1, 10)], [(2, 20)], [(2, 30)]⟩ 2 20 21 30 (by decide)
  exact ⟨hc.1, hc.2.1, hc.2.2, hr.1, hr.2.2⟩

/-- C1 (code evaluation at the failing input): resource id `7` has a
registered codec and is present in the store (`serialize_resource` succeeds
on the current world), yet with an empty `ResourceChangeTracking` ledger the
full-mode snapshot's resource list is empty — `AllState::request` only visits
ledger entries, so the resource is omitted. -/
theorem c1_allstate_omits_untracked_resource :
    serialize_resource sampleRegistry 7 0 = some ⟨7, [1, 2, 3]⟩ ∧
    allStateResources sampleRegistry [] 0 = [] :=
  ⟨rfl, rfl⟩

/-- C2 (counterexample): with a non-empty redo stack, executing a buffer
whose only command fails leaves the redo stack cleared — the processing of
the failed command *does* modify `rolledback_history`, refuting the claim
that neither stack is touched. -/
theorem c2_counterexample_failed_command_clears_redo :
    ((execute_buffer ⟨⟨[failingCmd]⟩, ⟨[], [okCmd], 0, 0⟩⟩ 0).1).history.rolledback_history
        = [] ∧
    (⟨⟨[failingCmd]⟩, ⟨[], [okCmd], 0, 0⟩⟩ :
        GameCommands Nat).history.rolledback_history ≠ [] :=
  ⟨rfl, by simp⟩

/-- C2 (amended): when a queued command's `execute` fails, the command is
dropped, the failure is reported, `history` (the undo stack) is not modified,
and processing continues with the next queued command — but
`rolledback_history` is unconditionally cleared during the processing of
every command, including the failed one. -/
theorem c2_failed_command_dropped_reported_continue {σ : Type}
    (c : GameCommandMeta σ) (rest : List (GameCommandMeta σ))
    (hist : GameCommandsHistory σ) (w : σ) (log : List String) (w' : σ)
    (e : String) (h : c.command.execute w = (w', some e)) :
    execute_buffer_go (c :: rest) hist w log =
      execute_buffer_go rest { hist with rolledback_history := [] } w'
        (log ++ [e]) := by
  simp [execute_buffer_go, h]

/-- Witness for the amended C2 at a concrete failing command. -/
theorem c2_witness :
    execute_buffer_go [failingCmd] (⟨[okCmd], [okCmd], 0, 0⟩ :
        GameCommandsHistory Nat) 0 [] =
      execute_buffer_go [] (⟨[okCmd], [], 0, 0⟩ : GameCommandsHistory Nat) 0
        ["boom"] :=
  c2_failed_command_dropped_reported_continue failingCmd []
    ⟨[okCmd], [okCmd], 0, 0⟩ 0 [] 0 "boom" rfl

/-- C10: in a delta snapshot for player `p`, a dirty resource record is
marked seen by `p` before the registry lookup; a dirty resource whose id has
no registered serialize function is therefore recorded as delivered and
omitted, and every later delta request for `p` — with *any* registry,
including one where the codec has been registered in the meantime — still
omits it while the record is not reinstalled by a new mutation. -/
theorem c10_unserializable_dirty_resource_marked_seen {CDe RDe σ : Type}
    (p rid : Nat) (rec : SimChanged)
    (reg : GameSerDeRegistry CDe RDe (σ → Option ResourceState)) (w : σ)
    (hp : p ∉ rec.players_seen)
    (hnone : mapGet reg.resource_se_map rid = none) :
    stateDifResources p reg [(rid, rec)] w =
      ([(rid, ⟨rec.players_seen ++ [p]⟩)], []) ∧
    (∀ (CDe' RDe' : Type)
        (reg' : GameSerDeRegistry CDe' RDe' (σ → Option ResourceState))
        (w' : σ),
      stateDifResources p reg' [(rid, ⟨rec.players_seen ++ [p]⟩)] w' =
        ([(rid, ⟨rec.players_seen ++ [p]⟩)], [])) := by
  constructor
  · simp [stateDifResources, SimChanged.check_and_register_seen, hp,
      serialize_resource, hnone]
  · intro CDe' RDe' reg' w'
    simp [stateDifResources, SimChanged.check_and_register_seen]

/-- If the redo stack is empty, the rollforward flush only drains the counter:
each iteration pops nothing and decrements, leaving everything else alone. -/
theorem rollforward_drain_empty {σ : Type} :
    ∀ (n : Nat) (h : GameCommandsHistory σ) (w : σ) (log : List String),
      h.rollforwards = n → h.rolledback_history = [] →
      execute_game_rollforward_buffer h w log =
        ({ h with rollforwards := 0 }, w, log)
  | 0, h, w, log, hn, _ => by
      rw [execute_game_rollforward_buffer]
      cases h
      simp_all
  | (n+1), h, w, log, hn, he => by
      rw [execute_game_rollforward_buffer]
      simp only [hn, he]
      simp only [List.getLast?_nil]
      have := rollforward_drain_empty n
        { h with rollforwards := h.rollforwards - 1 } w log (by simp [hn])
        (by simp [he])
      simp only [hn, he] at this ⊢
      simpa using this

/-- If the undo stack is empty, the rollback flush only drains the counter and
returns `ok`. -/
theorem rollback_drain_empty {σ : Type} :
    ∀ (n : Nat) (h : GameCommandsHistory σ) (w : σ),
      h.rollbacks = n → h.history = [] →
      execute_game_rollbacks_buffer h w = .ok ({ h with rollbacks := 0 }, w)
  | 0, h, w, hn, _ => by
      rw [execute_game_rollbacks_buffer]
      cases h
      simp_all
  | (n+1), h, w, hn, he => by
      rw [execute_game_rollbacks_buffer]
      simp only [hn, he]
      simp only [List.getLast?_nil]
      have := rollback_drain_empty n { h with rollbacks := h.rollbacks - 1 } w
        (by simp [hn]) (by simp [he])
      simp only [hn, he] at this ⊢
      simpa using this

/-- The rollforward flush always returns with its counter fully drained. -/
theorem rollforward_counter_zero {σ : Type} :
    ∀ (n : Nat) (h : GameCommandsHistory σ) (w : σ) (log : List String),
      h.rollforwards = n →
      ((execute_game_rollforward_buffer h w log).1).rollforwards = 0
  | 0, h, w, log, hn => by
      rw [execute_game_rollforward_buffer]
      simp [hn]
  | (n+1), h, w, log, hn => by
      rw [execute_game_rollforward_buffer]
      simp only [hn]
      rw [dif_neg (by omega : ¬ (n + 1 = 0))]
      split
      · split
        · exact rollforward_counter_zero n _ _ log rfl
        · exact rollforward_counter_zero n _ _ (log ++ ["Rolledforward failed"])
            rfl
      · exact rollforward_counter_zero n _ w log rfl

/-- Whenever the rollback flush returns `ok`, its counter is fully drained. -/
theorem rollback_ok_counter_zero {σ : Type} :
    ∀ (n : Nat) (h : GameCommandsHistory σ) (w : σ)
      (h' : GameCommandsHistory σ) (w' : σ),
      h.rollbacks = n →
      execute_game_rollbacks_buffer h w = .ok (h', w') → h'.rollbacks = 0
  | 0, h, w, h', w', hn, hok => by
      rw [execute_game_rollbacks_buffer] at hok
      simp [hn] at hok
      rw [← hok.1]
      exact hn
  | (n+1), h, w, h', w', hn, hok => by
      rw [execute_game_rollbacks_buffer] at hok
      simp only [hn] at hok
      rw [dif_neg (by omega : ¬ (n + 1 = 0))] at hok
      split at hok
      · split at hok
        · exact Except.noConfusion hok
        · exact rollback_ok_counter_zero n _ _ h' w' rfl hok
      · exact rollback_ok_counter_zero n _ w h' w' rfl hok

/-- A rollforward flush whose counter is at least the redo-stack depth gives
the same result as one requesting exactly the depth: the excess iterations
only decrement the counter. -/
theorem rollforward_excess {σ : Type} :
    ∀ (n : Nat) (h : GameCommandsHistory σ) (w : σ) (log : List String),
      h.rollforwards = n → h.rolledback_history.length ≤ n →
      execute_game_rollforward_buffer h w log =
        execute_game_rollforward_buffer
          { h with rollforwards := h.rolledback_history.length } w log
  | 0, h, w, log, hn, hlen => by
      have he : h.rolledback_history = [] := by
        cases hl : h.rolledback_history with
        | nil => rfl
        | cons a as => rw [hl] at hlen; simp at hlen
      have heq : ({ h with rollforwards := h.rolledback_history.length } :
          GameCommandsHistory σ) = h := by
        cases h; simp_all
      rw [heq]
  | (n+1), h, w, log, hn, hlen => by
      rcases List.eq_nil_or_concat h.rolledback_history with he | ⟨xs, cmd, he⟩
      · rw [rollforward_drain_empty (n+1) h w log hn he]
        rw [execute_game_rollforward_buffer]
        simp [he]
      · have hlast : h.rolledback_history.getLast? = some cmd := by
          rw [he]; simp
        have hdrop : h.rolledback_history.dropLast = xs := by
          rw [he]; simp
        have hlen' : h.rolledback_history.length = xs.length + 1 := by
          rw [he]; simp
        have hxs : xs.length ≤ n := by omega
        rw [execute_game_rollforward_buffer]
        conv_rhs => rw [execute_game_rollforward_buffer]
        simp only [hn, hlast, hdrop, hlen']
        rw [dif_neg (by omega : ¬ (n + 1 = 0)),
          dif_neg (by omega : ¬ (xs.length + 1 = 0))]
        split
        · exact rollforward_excess n _ _ log rfl (by simpa [hdrop] using hxs)
        · exact rollforward_excess n _ _ (log ++ ["Rolledforward failed"]) rfl
            (by simpa [hdrop] using hxs)

/-- Looking up the key just inserted returns the inserted value. -/
theorem mapGet_mapInsert_self {V : Type} :
    ∀ (m : List (Nat × V)) (k : Nat) (v : V),
      mapGet (mapInsert m k v) k = some v
  | [], k, v => by simp [mapInsert, mapGet]
  | (k', v') :: rest, k, v => by
      by_cases hk : k' = k
      · simp [mapInsert, mapGet, hk]
      · simp only [mapInsert, mapGet, if_neg hk]
        exact mapGet_mapInsert_self rest k v

/-- Inserting under one key leaves lookups of other keys unchanged. -/
theorem mapGet_mapInsert_ne {V : Type} :
    ∀ (m : List (Nat × V)) (k k' : Nat) (v : V), k ≠ k' →
      mapGet (mapInsert m k v) k' = mapGet m k'
  | [], k, k', v, hne => by simp [mapInsert, mapGet, hne]
  | (a, b) :: rest, k, k', v, hne => by
      by_cases hk : a = k
      · subst hk
        simp [mapInsert, mapGet, hne]
      · simp only [mapInsert, if_neg hk, mapGet]
        by_cases ha : a = k'
        · simp [ha]
        · simp only [if_neg ha]
          exact mapGet_mapInsert_ne rest k k' v hne

/-- A fold that only ever inserts the constant value `d` preserves a lookup
already returning `d`. -/
theorem mapGet_foldl_insert_pres {V : Type} (d : V) :
    ∀ (l : List Nat) (m : List (Nat × V)) (e : Nat),
      mapGet m e = some d →
      mapGet (l.foldl (fun acc e' => mapInsert acc e' d) m) e = some d
  | [], _, _, h => h
  | a :: l, m, e, h => by
      apply mapGet_foldl_insert_pres d l
      by_cases hae : a = e
      · subst hae; exact mapGet_mapInsert_self m a d
      · rw [mapGet_mapInsert_ne m a e d hae]; exact h

/-- After folding constant-`d` inserts over a list containing `e`, the lookup
of `e` returns `d`, whatever was stored before. -/
theorem mapGet_foldl_insert_mem {V : Type} (d : V) :
    ∀ (l : List Nat) (m : List (Nat × V)) (e : Nat), e ∈ l →
      mapGet (l.foldl (fun acc e' => mapInsert acc e' d) m) e = some d
  | a :: l, m, e, hmem => by
      by_cases hel : e ∈ l
      · exact mapGet_foldl_insert_mem d l (mapInsert m a d) e hel
      · have hae : a = e := by
          rcases List.mem_cons.mp hmem with h | h
          · exact h.symm
          · exact absurd h hel
        subst hae
        exact mapGet_foldl_insert_pres d l (mapInsert m a d) a
          (mapGet_mapInsert_self m a d)

/-- The guarded fold of `track_component_changes`' removed-components pass
also preserves a lookup already returning `d`. -/
theorem mapGet_foldl_insertIf_pres {V : Type} (d : V) (live : List Nat) :
    ∀ (l : List Nat) (m : List (Nat × V)) (e : Nat),
      mapGet m e = some d →
      mapGet (l.foldl
        (fun acc e' => if live.contains e' then mapInsert acc e' d else acc) m)
        e = some d
  | [], _, _, h => h
  | a :: l, m, e, h => by
      apply mapGet_foldl_insertIf_pres d live l
      by_cases hl : live.contains a
      · simp only [hl, if_pos]
        by_cases hae : a = e
        · subst hae; exact mapGet_mapInsert_self m a d
        · rw [mapGet_mapInsert_ne m a e d hae]; exact h
      · simp only [hl]
        simpa using h

/-- The guarded fold installs `d` under every listed key that passes the
liveness check. -/
theorem mapGet_foldl_insertIf_mem {V : Type} (d : V) (live : List Nat) :
    ∀ (l : List Nat) (m : List (Nat × V)) (e : Nat), e ∈ l →
      live.contains e = true →
      mapGet (l.foldl
        (fun acc e' => if live.contains e' then mapInsert acc e' d else acc) m)
        e = some d
  | a :: l, m, e, hmem, hlive => by
      by_cases hel : e ∈ l
      · exact mapGet_foldl_insertIf_mem d live l _ e hel hlive
      · have hae : a = e := by
          rcases List.mem_cons.mp hmem with h | h
          · exact h.symm
          · exact absurd h hel
        subst hae
        apply mapGet_foldl_insertIf_pres d live l
        simp only [hlive, if_pos]
        exact mapGet_mapInsert_self m a d

/-- C7: a detected mutation (component change, removed component on a live
entity, or resource change) installs a fresh, empty `SimChanged` record for
the item, overwriting whatever record — with whatever registered observers —
was there before. -/
theorem c7_mutation_overwrites_with_fresh_record :
    (∀ (simChanged : List (Nat × SimChanged)) (changed removed live : List Nat)
        (e : Nat), e ∈ changed →
      mapGet (track_component_changes simChanged changed removed live) e =
        some ⟨[]⟩) ∧
    (∀ (simChanged : List (Nat × SimChanged)) (changed removed live : List Nat)
        (e : Nat), e ∈ removed → live.contains e = true →
      mapGet (track_component_changes simChanged changed removed live) e =
        some ⟨[]⟩) ∧
    (∀ (resources : List (Nat × SimChanged)) (rid : Nat),
      mapGet (track_resource_changes resources rid true true) rid =
        some ⟨[]⟩) := by
  refine ⟨fun simChanged changed removed live e hmem => ?_,
    fun simChanged changed removed live e hmem hlive => ?_,
    fun resources rid => ?_⟩
  · unfold track_component_changes
    exact mapGet_foldl_insertIf_pres (⟨[]⟩ : SimChanged) live removed _ e
      (mapGet_foldl_insert_mem (⟨[]⟩ : SimChanged) changed simChanged e hmem)
  · unfold track_component_changes
    exact mapGet_foldl_insertIf_mem (⟨[]⟩ : SimChanged) live removed _ e hmem
      hlive
  · unfold track_resource_changes
    simpa using mapGet_mapInsert_self resources rid (⟨[]⟩ : SimChanged)

/-- Witness for C7: entity `1` (changed) and entity `2` (removed but live)
both had partially acknowledged records, resource `9` likewise; all three end
up with a fresh empty record. -/
theorem c7_witness :
    mapGet (track_component_changes [(1, ⟨[4, 5]⟩)] [1] [2] [2]) 1 =
      some ⟨[]⟩ ∧
    mapGet (track_component_changes [(2, ⟨[4]⟩)] [] [2] [2]) 2 = some ⟨[]⟩ ∧
    mapGet (track_resource_changes [(9, ⟨[4]⟩)] 9 true true) 9 = some ⟨[]⟩ :=
  ⟨c7_mutation_overwrites_with_fresh_record.1 [(1, ⟨[4, 5]⟩)] [1] [2] [2] 1
      (by decide),
   c7_mutation_overwrites_with_fresh_record.2.1 [(2, ⟨[4]⟩)] [] [2] [2] 2
      (by decide) (by decide),
   c7_mutation_overwrites_with_fresh_record.2.2 [(9, ⟨[4]⟩)] 9⟩

/-- Membership in `mapRemove`. -/
theorem mem_mapRemove {V : Type} (m : List (Nat × V)) (k : Nat) (x : Nat × V) :
    x ∈ mapRemove m k ↔ x ∈ m ∧ x.1 ≠ k := by
  simp [mapRemove, List.mem_filter]

/-- Membership after folding `mapRemove` over a list of keys. -/
theorem mem_foldl_mapRemove {V : Type} :
    ∀ (ks : List Nat) (m : List (Nat × V)) (x : Nat × V),
      x ∈ ks.foldl (fun acc k => mapRemove acc k) m ↔ x ∈ m ∧ x.1 ∉ ks
  | [], m, x => by simp
  | k :: ks, m, x => by
      rw [List.foldl_cons, mem_foldl_mapRemove ks (mapRemove m k) x,
        mem_mapRemove]
      constructor
      · rintro ⟨⟨hm, hk⟩, hks⟩
        exact ⟨hm, by simp [hk, hks]⟩
      · rintro ⟨hm, hmem⟩
        simp only [List.mem_cons, not_or] at hmem
        exact ⟨⟨hm, hmem.1⟩, hmem.2⟩

/-- In a map whose key list is duplicate-free, two entries with the same key
are the same entry. -/
theorem eq_of_mem_nodup_keys {V : Type} :
    ∀ (m : List (Nat × V)), (m.map Prod.fst).Nodup →
      ∀ x y : Nat × V, x ∈ m → y ∈ m → x.1 = y.1 → x = y
  | [], _, x, y, hx, _, _ => absurd hx (List.not_mem_nil x)
  | a :: m, hnd, x, y, hx, hy, hkey => by
      simp only [List.map_cons, List.nodup_cons] at hnd
      rcases List.mem_cons.mp hx with hxa | hxm
      · rcases List.mem_cons.mp hy with hya | hym
        · rw [hxa, hya]
        · exfalso
          apply hnd.1
          rw [hxa] at hkey
          rw [hkey]
          exact List.mem_map.mpr ⟨y, hym, rfl⟩
      · rcases List.mem_cons.mp hy with hya | hym
        · exfalso
          apply hnd.1
          rw [hya] at hkey
          rw [← hkey]
          exact List.mem_map.mpr ⟨x, hxm, rfl⟩
        · exact eq_of_mem_nodup_keys m hnd.2 x y hxm hym hkey

/-- Every entry surviving `removeAllSeen` fails `all_seen`. -/
theorem removeAllSeen_not_all_seen (players : List Player)
    (m : List (Nat × SimChanged)) (x : Nat × SimChanged)
    (hx : x ∈ removeAllSeen players m) : x.2.all_seen players = false := by
  unfold removeAllSeen at hx
  rw [mem_foldl_mapRemove] at hx
  rcases hx with ⟨hm, hkeys⟩
  cases hseen : x.2.all_seen players with
  | false => rfl
  | true =>
    exfalso
    exact hkeys (List.mem_map.mpr ⟨x, List.mem_filter.mpr ⟨hm, by simp [hseen]⟩,
      rfl⟩)

/-- With duplicate-free keys, an entry failing `all_seen` survives
`removeAllSeen`. -/
theorem removeAllSeen_keeps_not_all_seen (players : List Player)
    (m : List (Nat × SimChanged)) (hnd : (m.map Prod.fst).Nodup)
    (x : Nat × SimChanged) (hm : x ∈ m)
    (hseen : x.2.all_seen players = false) :
    x ∈ removeAllSeen players m := by
  unfold removeAllSeen
  rw [mem_foldl_mapRemove]
  refine ⟨hm, fun hmem => ?_⟩
  rcases List.mem_map.mp hmem with ⟨y, hy, hkey⟩
  rcases List.mem_filter.mp hy with ⟨hym, hyseen⟩
  have : x = y := eq_of_mem_nodup_keys m hnd x y hm hym hkey.symm
  rw [this] at hseen
  simp only [hseen] at hyseen
  exact Bool.noConfusion hyseen

/-- C8: after `clear_changed` with a given player list, no remaining entry in
any of the three ledgers satisfies `all_seen` for that player list, and —
given the `HashMap` unique-key invariant — an entry of the input survives if
and only if it fails `all_seen`: every `all_seen` entry is removed and no
other entry is removed. -/
theorem c8_clear_changed_removes_exactly_all_seen
    (l : ChangeLedgers) (players : List Player)
    (h1 : (l.simChanged.map Prod.fst).Nodup)
    (h2 : (l.despawned_objects.map Prod.fst).Nodup)
    (h3 : (l.resources.map Prod.fst).Nodup) :
    (∀ x ∈ (clear_changed l players).simChanged,
      x.2.all_seen players = false) ∧
    (∀ x ∈ l.simChanged, (x ∈ (clear_changed l players).simChanged ↔
      x.2.all_seen players = false)) ∧
    (∀ x ∈ (clear_changed l players).despawned_objects,
      x.2.all_seen players = false) ∧
    (∀ x ∈ l.despawned_objects,
      (x ∈ (clear_changed l players).despawned_objects ↔
        x.2.all_seen players = false)) ∧
    (∀ x ∈ (clear_changed l players).resources,
      x.2.all_seen players = false) ∧
    (∀ x ∈ l.resources, (x ∈ (clear_changed l players).resources ↔
      x.2.all_seen players = false)) := by
  refine ⟨fun x hx => removeAllSeen_not_all_seen players l.simChanged x hx,
    fun x hx => ⟨fun hr => removeAllSeen_not_all_seen players l.simChanged x hr,
      fun hs => removeAllSeen_keeps_not_all_seen players l.simChanged h1 x hx hs⟩,
    fun x hx => removeAllSeen_not_all_seen players l.despawned_objects x hx,
    fun x hx => ⟨fun hr =>
        removeAllSeen_not_all_seen players l.despawned_objects x hr,
      fun hs => removeAllSeen_keeps_not_all_seen players l.despawned_objects h2
        x hx hs⟩,
    fun x hx => removeAllSeen_not_all_seen players l.resources x hx,
    fun x hx => ⟨fun hr => removeAllSeen_not_all_seen players l.resources x hr,
      fun hs => removeAllSeen_keeps_not_all_seen players l.resources h3 x hx
        hs⟩⟩

/-- Witness for C8: one required player `0`; entries `(1, seen)` and
`(3, seen)` are collected, `(2, unseen)` and `(4, unseen)` survive. -/
theorem c8_witness :
    ((2, (⟨[]⟩ : SimChanged)) ∈
      (clear_changed ⟨[(1, ⟨[0]⟩), (2, ⟨[]⟩)], [(3, ⟨[0]⟩)], [(4, ⟨[]⟩)]⟩
        [⟨0, true⟩]).simChanged ↔
      SimChanged.all_seen ⟨[]⟩ [⟨0, true⟩] = false) ∧
    ((3, (⟨[0]⟩ : SimChanged)) ∈
      (clear_changed ⟨[(1, ⟨[0]⟩), (2, ⟨[]⟩)], [(3, ⟨[0]⟩)], [(4, ⟨[]⟩)]⟩
        [⟨0, true⟩]).despawned_objects ↔
      SimChanged.all_seen ⟨[0]⟩ [⟨0, true⟩] = false) ∧
    ((4, (⟨[]⟩ : SimChanged)) ∈
      (clear_changed ⟨[(1, ⟨[0]⟩), (2, ⟨[]⟩)], [(3, ⟨[0]⟩)], [(4, ⟨[]⟩)]⟩
        [⟨0, true⟩]).resources ↔
      SimChanged.all_seen ⟨[]⟩ [⟨0, true⟩] = false) := by
  have h := c8_clear_changed_removes_exactly_all_seen
    ⟨[(1, ⟨[0]⟩), (2, ⟨[]⟩)], [(3, ⟨[0]⟩)], [(4, ⟨[]⟩)]⟩ [⟨0, true⟩]
    (by decide) (by decide) (by decide)
  exact ⟨h.2.1 (2, ⟨[]⟩) (by decide), h.2.2.2.1 (3, ⟨[0]⟩) (by decide),
    h.2.2.2.2.2 (4, ⟨[]⟩) (by decide)⟩

/-- C3: a command whose `execute` succeeds is appended to the undo stack and
the redo stack is then unconditionally cleared; in the scenario "execute C1
and C2, roll back once (undoing C2), execute a new C3", any later rollforward
flush leaves history and world untouched — C2 is never reapplied, because
C3's successful execution discarded the redo branch. -/
theorem c3_success_clears_redo_branch :
    (∀ (σ : Type) (c : GameCommandMeta σ) (rest : List (GameCommandMeta σ))
        (hist : GameCommandsHistory σ) (w : σ) (log : List String) (w' : σ),
      c.command.execute w = (w', none) →
      execute_buffer_go (c :: rest) hist w log =
        execute_buffer_go rest
          { hist with history := hist.history ++ [c], rolledback_history := [] }
          w' log) ∧
    (∀ (σ : Type) (cA cB cC : GameCommandMeta σ) (w0 w1 w2 w2' w3 : σ),
      cA.command.execute w0 = (w1, none) →
      cB.command.execute w1 = (w2, none) →
      cB.command.rollback w2 = (w2', none) →
      cC.command.execute w2' = (w3, none) →
      execute_buffer ⟨⟨[cA, cB]⟩, ⟨[], [], 0, 0⟩⟩ w0 =
        (⟨⟨[]⟩, ⟨[cA, cB], [], 0, 0⟩⟩, w2, []) ∧
      execute_game_rollbacks_buffer
          (⟨[cA, cB], [], 1, 0⟩ : GameCommandsHistory σ) w2 =
        .ok (⟨[cA], [cB], 0, 0⟩, w2') ∧
      execute_buffer ⟨⟨[cC]⟩, ⟨[cA], [cB], 0, 0⟩⟩ w2' =
        (⟨⟨[]⟩, ⟨[cA, cC], [], 0, 0⟩⟩, w3, []) ∧
      ∀ (n : Nat) (log : List String),
        execute_game_rollforward_buffer
            (⟨[cA, cC], [], 0, n⟩ : GameCommandsHistory σ) w3 log =
          (⟨[cA, cC], [], 0, 0⟩, w3, log)) := by
  constructor
  · intro σ c rest hist w log w' h
    simp [execute_buffer_go, h]
  · intro σ cA cB cC w0 w1 w2 w2' w3 h1 h2 h3 h4
    refine ⟨?_, ?_, ?_, ?_⟩
    · simp [execute_buffer, execute_buffer_go, h1, h2]
    · rw [execute_game_rollbacks_buffer]
      simp
      simp only [h3]
      rw [execute_game_rollbacks_buffer]
      simp
    · simp [execute_buffer, execute_buffer_go, h4]
    · intro n log
      exact rollforward_drain_empty n ⟨[cA, cC], [], 0, n⟩ w3 log rfl rfl

/-- Witness for C3 with three concrete incrementing commands. -/
theorem c3_witness :
    execute_buffer_go [okCmd] (⟨[], [okCmd], 0, 0⟩ : GameCommandsHistory Nat)
        0 [] = execute_buffer_go [] ⟨[okCmd], [], 0, 0⟩ 1 [] ∧
    execute_buffer ⟨⟨[okCmd, okCmd]⟩, ⟨[], [], 0, 0⟩⟩ 0 =
      (⟨⟨[]⟩, ⟨[okCmd, okCmd], [], 0, 0⟩⟩, 2, []) ∧
    execute_game_rollbacks_buffer
        (⟨[okCmd, okCmd], [], 1, 0⟩ : GameCommandsHistory Nat) 2 =
      .ok (⟨[okCmd], [okCmd], 0, 0⟩, 1) ∧
    execute_buffer ⟨⟨[okCmd]⟩, ⟨[okCmd], [okCmd], 0, 0⟩⟩ 1 =
      (⟨⟨[]⟩, ⟨[okCmd, okCmd], [], 0, 0⟩⟩, 2, []) ∧
    execute_game_rollforward_buffer
        (⟨[okCmd, okCmd], [], 0, 5⟩ : GameCommandsHistory Nat) 2 [] =
      (⟨[okCmd, okCmd], [], 0, 0⟩, 2, []) := by
  have hs := c3_success_clears_redo_branch.2 Nat okCmd okCmd okCmd 0 1 2 1 2
    rfl rfl rfl rfl
  exact ⟨c3_success_clears_redo_branch.1 Nat okCmd [] ⟨[], [okCmd], 0, 0⟩ 0 []
      1 rfl, hs.1, hs.2.1, hs.2.2.1, hs.2.2.2 5 []⟩

/-- C4: a rollback failure during the rollback flush is fatal — the flush
stops at once with the failure surfaced (the panic), the failed command
already popped and not re-pushed; an execute failure during the rollforward
flush is only reported, the failed command is re-inserted into neither stack,
and the flush continues with the next iteration. -/
theorem c4_rollback_fatal_rollforward_recoverable :
    (∀ (σ : Type) (h : GameCommandsHistory σ) (w w' : σ)
        (cmd : GameCommandMeta σ) (e : String),
      h.rollbacks ≠ 0 → h.history.getLast? = some cmd →
      cmd.command.rollback w = (w', some e) →
      execute_game_rollbacks_buffer h w =
        .error ("Rollback failed",
          { h with history := h.history.dropLast }, w')) ∧
    (∀ (σ : Type) (h : GameCommandsHistory σ) (w w' : σ)
        (cmd : GameCommandMeta σ) (e : String) (log : List String),
      h.rollforwards ≠ 0 → h.rolledback_history.getLast? = some cmd →
      cmd.command.execute w = (w', some e) →
      execute_game_rollforward_buffer h w log =
        execute_game_rollforward_buffer
          { h with
            rolledback_history := h.rolledback_history.dropLast,
            rollforwards := h.rollforwards - 1 } w'
          (log ++ ["Rolledforward failed"])) := by
  constructor
  · intro σ h w w' cmd e hne hlast hrb
    rw [execute_game_rollbacks_buffer]
    rw [dif_neg hne]
    simp only [hlast, hrb]
  · intro σ h w w' cmd e log hne hlast hex
    rw [execute_game_rollforward_buffer]
    rw [dif_neg hne]
    simp only [hlast, hex]

/-- Witness for C4: a failing rollback aborts the flush with the panic
surfaced; a failing re-execute is reported and the flush moves on. -/
theorem c4_witness :
    execute_game_rollbacks_buffer
        (⟨[badRollbackCmd], [], 1, 0⟩ : GameCommandsHistory Nat) 5 =
      .error ("Rollback failed", ⟨[], [], 1, 0⟩, 5) ∧
    execute_game_rollforward_buffer
        (⟨[], [failingCmd], 0, 1⟩ : GameCommandsHistory Nat) 5 [] =
      execute_game_rollforward_buffer
        (⟨[], [], 0, 0⟩ : GameCommandsHistory Nat) 5
        (["Rolledforward failed"]) :=
  ⟨c4_rollback_fatal_rollforward_recoverable.1 Nat ⟨[badRollbackCmd], [], 1, 0⟩
      5 5 badRollbackCmd "bad" (by decide) rfl rfl,
   c4_rollback_fatal_rollforward_recoverable.2 Nat ⟨[], [failingCmd], 0, 1⟩
      5 5 failingCmd "boom" [] (by decide) rfl rfl⟩

/-- C5: both flush loops decrement their counter on every iteration whether
or not the source stack yields an entry; with an empty source stack any
counter value drains to zero leaving everything else untouched and raising no
error; a rollforward counter exceeding the redo-stack depth behaves exactly
like one equal to the depth; and every flush that returns normally ends with
its counter at zero. -/
theorem c5_counter_decrements_and_excess_is_silent :
    (∀ (σ : Type) (h : GameCommandsHistory σ) (w : σ), h.history = [] →
      execute_game_rollbacks_buffer h w = .ok ({ h with rollbacks := 0 }, w)) ∧
    (∀ (σ : Type) (h : GameCommandsHistory σ) (w : σ) (log : List String),
      h.rolledback_history = [] →
      execute_game_rollforward_buffer h w log =
        ({ h with rollforwards := 0 }, w, log)) ∧
    (∀ (σ : Type) (h : GameCommandsHistory σ) (w : σ) (log : List String),
      h.rolledback_history.length ≤ h.rollforwards →
      execute_game_rollforward_buffer h w log =
        execute_game_rollforward_buffer
          { h with rollforwards := h.rolledback_history.length } w log) ∧
    (∀ (σ : Type) (h : GameCommandsHistory σ) (w : σ) (log : List String),
      ((execute_game_rollforward_buffer h w log).1).rollforwards = 0) ∧
    (∀ (σ : Type) (h h' : GameCommandsHistory σ) (w w' : σ),
      execute_game_rollbacks_buffer h w = .ok (h', w') → h'.rollbacks = 0) :=
  ⟨fun σ h w he => rollback_drain_empty h.rollbacks h w rfl he,
   fun σ h w log he => rollforward_drain_empty h.rollforwards h w log rfl he,
   fun σ h w log hlen => rollforward_excess h.rollforwards h w log rfl hlen,
   fun σ h w log => rollforward_counter_zero h.rollforwards h w log rfl,
   fun σ h h' w w' hok => rollback_ok_counter_zero h.rollbacks h w h' w' rfl hok⟩

/-- Witness for C5 at concrete over-requested flushes. -/
theorem c5_witness :
    execute_game_rollbacks_buffer
        (⟨[], [okCmd], 3, 0⟩ : GameCommandsHistory Nat) 0 =
      .ok (⟨[], [okCmd], 0, 0⟩, 0) ∧
    execute_game_rollforward_buffer
        (⟨[okCmd], [], 0, 3⟩ : GameCommandsHistory Nat) 0 [] =
      (⟨[okCmd], [], 0, 0⟩, 0, []) ∧
    execute_game_rollforward_buffer
        (⟨[], [okCmd], 0, 5⟩ : GameCommandsHistory Nat) 0 [] =
      execute_game_rollforward_buffer (⟨[], [okCmd], 0, 1⟩ :
        GameCommandsHistory Nat) 0 [] ∧
    ((execute_game_rollforward_buffer
        (⟨[], [okCmd, okCmd], 0, 7⟩ : GameCommandsHistory Nat) 0 []).1).rollforwards
      = 0 ∧
    (⟨[], [okCmd], 0, 0⟩ : GameCommandsHistory Nat).rollbacks = 0 := by
  refine ⟨c5_counter_decrements_and_excess_is_silent.1 Nat ⟨[], [okCmd], 3, 0⟩
      0 rfl,
    c5_counter_decrements_and_excess_is_silent.2.1 Nat ⟨[okCmd], [], 0, 3⟩ 0 []
      rfl,
    c5_counter_decrements_and_excess_is_silent.2.2.1 Nat ⟨[], [okCmd], 0, 5⟩ 0
      [] (by decide),
    c5_counter_decrements_and_excess_is_silent.2.2.2.1 Nat
      ⟨[], [okCmd, okCmd], 0, 7⟩ 0 [],
    c5_counter_decrements_and_excess_is_silent.2.2.2.2 Nat ⟨[], [okCmd], 3, 0⟩
      ⟨[], [okCmd], 0, 0⟩ 0 0 ?_⟩
  exact c5_counter_decrements_and_excess_is_silent.1 Nat ⟨[], [okCmd], 3, 0⟩ 0
    rfl

/-- Witness for C10: player `0`, dirty resource `5` with a fresh record and
no registered codec; the later request uses `sampleRegistry`, which does have
codecs registered. -/
theorem c10_witness :
    stateDifResources 0 emptyRegistry [(5, ⟨[]⟩)] 0 = ([(5, ⟨[0]⟩)], []) ∧
    stateDifResources 0 sampleRegistry [(5, ⟨[0]⟩)] 0 = ([(5, ⟨[0]⟩)], []) := by
  have h := c10_unserializable_dirty_resource_marked_seen 0 5 ⟨[]⟩
    emptyRegistry 0 (by decide) rfl
  exact ⟨h.1, h.2 Nat Nat sampleRegistry 0⟩

end SimWorldModel
